import Mathlib

/-!
Verification of the deployment engine in `src/main.ts` of
`ghaction-github-pages` (a GitHub Action publishing a built static site to a
branch of a remote repository).

The embedding is a shallow one.  The single orchestration function `run`
(src/main.ts lines 9-178) is translated into a pure Lean function from the
resolved action inputs, the process environment and an oracle for the opaque
external collaborators (the git adapter `./git`, the filesystem, `fs-extra`'s
`copy` and `addressparser`) to a `RunResult`: the ordered list of observable
effectful steps (`Action`s) the run performs together with its terminal
`Outcome`.  External collaborators are modelled by their results recorded in a
`World` record; the engine's own decision logic — configuration parsing,
credential resolution, clone-vs-init, directory isolation, dirty checks,
commit and push decisions — is translated statement by statement.
-/

namespace GhPages

/-- Result of `addressparser(s)[0]`: a parsed mailbox with a display name and
an email address.  `addressparser` itself is an external dependency; runs only
consume the first element of its result, modelled in `World.parseAddr`. -/
structure Address where
  name : String
  address : String
  deriving DecidableEq

/-- An observable effectful step performed by `run` (src/main.ts), in program
order: temporary-directory creation (line 49), `git.clone` (line 58),
`git.init` / `git.checkout` (lines 62-63), `emptydirSync` on one working-tree
entry (line 86), the recursive `copy` invocation (line 100), `core.error`
logging of a copy failure (line 115), the `CNAME` and `.nojekyll` writes
(lines 122, 127), `git.setConfig` (lines 139-140), `git.add` (line 149),
`git.commit` (line 154), `git.showStat` (line 155), `git.push` (line 165) and
the dry-run warning (line 169). -/
inductive Action where
  | mkTmpdir : Action
  | clone (remoteURL branch : String) : Action
  | gitInit : Action
  | checkout (branch : String) : Action
  | emptyDir (name : String) : Action
  | copyDir (dereference : Bool) : Action
  | logError (msg : String) : Action
  | writeCNAME (content : String) : Action
  | writeNojekyll : Action
  | setConfig (key value : String) : Action
  | addAll : Action
  | commit (allowEmpty : Bool) (author message : String) : Action
  | showStat : Action
  | push (remoteURL branch : String) (force : Bool) : Action
  | warn (msg : String) : Action
  deriving DecidableEq

/-- Reason recorded by a terminal failure: the `core.setFailed` call sites of
src/main.ts.  `buildDirMissing` is line 29, `missingToken` is line 41,
`committerUndefined` and `authorUndefined` are the caught TypeErrors raised at
lines 139/154 when `addressparser(...)[0]` is undefined, funnelled through the
top-level handler at line 174 (the JS engine's message text is abstracted). -/
inductive FailReason where
  | buildDirMissing : FailReason
  | missingToken : FailReason
  | committerUndefined : FailReason
  | authorUndefined : FailReason
  deriving DecidableEq

/-- Terminal state of a run.  `noChangesToCommit` is the early return at
lines 132-135 ("No changes to commit"), `nothingToDeploy` the return at
lines 143-146 ("Nothing to deploy") — both are the spec's SkippedNoChanges —
`skippedDryRun` the warning path at lines 168-170, `pushed` the successful
push path at lines 160-167, and `failed` any `core.setFailed` termination. -/
inductive Outcome where
  | pushed : Outcome
  | noChangesToCommit : Outcome
  | nothingToDeploy : Outcome
  | skippedDryRun : Outcome
  | failed (r : FailReason) : Outcome
  deriving DecidableEq

/-- The observable result of one run: the trace of effectful steps performed,
in order, and the terminal outcome. -/
structure RunResult where
  trace : List Action
  outcome : Outcome
  deriving DecidableEq

/-- The strings returned by `core.getInput` for each declared input of the
action (src/main.ts lines 11-26); an absent input is the empty string. -/
structure Inputs where
  domain : String
  repo : String
  target_branch : String
  keep_history : String
  multiple_sites : String
  allow_empty_commit : String
  build_dir : String
  absolute_build_dir : String
  follow_symlinks : String
  committer : String
  author : String
  commit_message : String
  fqdn : String
  jekyll : String
  dry_run : String
  verbose : String

/-- The process environment variables read by src/main.ts (lines 12, 34, 37):
`none` models an unset variable. -/
structure Env where
  GH_PAT : Option String
  GITHUB_TOKEN : Option String
  GITHUB_REPOSITORY : Option String

/-- The `git.defaults` record imported from `./git` (src/main.ts lines 13,
20-22).  Modelled from the spec: `./git` is part of this repository but not
under src/, so its default target branch, committer, author and message are
kept abstract as parameters; the spec fixes none of their values. -/
structure Defaults where
  targetBranch : String
  committer : String
  author : String
  message : String

/-- Case-insensitive match of the literal pattern against the head of the
text: the step a regex engine takes when testing `/pat/i` anchored at one
position. -/
def matchesAt : List Char → List Char → Bool
  | [], _ => true
  | _ :: _, [] => false
  | p :: ps, c :: cs => (p.toLower == c.toLower) && matchesAt ps cs

/-- Scan of every start position for a case-insensitive match of the literal
pattern: the unanchored search a regex engine performs for `/pat/i`. -/
def searchFrom (pat : List Char) : List Char → Bool
  | [] => matchesAt pat []
  | c :: cs => matchesAt pat (c :: cs) || searchFrom pat cs

/-- Embedding of the JS test `/pat/i.test(s)` for a literal pattern `pat`,
used by src/main.ts lines 14-19 and 24-26 to parse every boolean input. -/
def regexTestCI (pat s : String) : Bool :=
  searchFrom pat.data s.data

/-- Stated from the claim's words, for comparison with `regexTestCI`: `s`
contains `pat` as a substring, ignoring case. -/
def containsCI (s pat : String) : Bool :=
  decide (pat.data.map Char.toLower <:+: s.data.map Char.toLower)

/-- Model of JS `String.prototype.trim`: drop leading and trailing
whitespace (written with structural recursion so that concrete runs
evaluate). -/
def jsTrim (s : String) : String :=
  String.mk (((s.data.dropWhile Char.isWhitespace).reverse.dropWhile
    Char.isWhitespace).reverse)

/-- JavaScript string disjunction `a || b`: the empty string is the only
falsy string. -/
def jsOr (a b : String) : String :=
  if a = "" then b else a

/-- JavaScript truthiness of `process.env[v]`: the variable is defined and
non-empty. -/
def truthy : Option String → Bool
  | some s => !(s == "")
  | none => false

/-- The resolved configuration constructed at src/main.ts lines 11-26. -/
structure Config where
  domain : String
  repo : String
  targetBranch : String
  keepHistory : Bool
  multipleSites : Bool
  allowEmptyCommit : Bool
  buildDir : String
  absoluteBuildDir : Bool
  followSymlinks : Bool
  committer : String
  author : String
  commitMessage : String
  fqdn : String
  nojekyll : Bool
  dryRun : Bool
  verbose : Bool

/-- Embedding of src/main.ts lines 11-26: each input string is resolved with
JS `||` defaulting, and every boolean flag by the test `/true/i` (for
`jekyll`, `/false/i`). -/
def resolveConfig (inp : Inputs) (env : Env) (dfl : Defaults) : Config where
  domain := jsOr inp.domain "github.com"
  repo := jsOr inp.repo (env.GITHUB_REPOSITORY.getD "")
  targetBranch := jsOr inp.target_branch dfl.targetBranch
  keepHistory := regexTestCI "true" inp.keep_history
  multipleSites := regexTestCI "true" inp.multiple_sites
  allowEmptyCommit := regexTestCI "true" inp.allow_empty_commit
  buildDir := inp.build_dir
  absoluteBuildDir := regexTestCI "true" inp.absolute_build_dir
  followSymlinks := regexTestCI "true" inp.follow_symlinks
  committer := jsOr inp.committer dfl.committer
  author := jsOr inp.author dfl.author
  commitMessage := jsOr inp.commit_message dfl.message
  fqdn := inp.fqdn
  nojekyll := regexTestCI "false" inp.jekyll
  dryRun := regexTestCI "true" inp.dry_run
  verbose := regexTestCI "true" inp.verbose

/-- A top-level entry of the working tree as the isolation loop observes it
(src/main.ts lines 80-90): an `lstat` directory with some contents, or any
non-directory entry (plain file, symlink, ...) with its payload. -/
inductive FsEntry where
  | dir (contents : List String) : FsEntry
  | file (content : String) : FsEntry
  deriving DecidableEq

/-- Effect of `emptydirSync(tmpdir/f)` (src/main.ts line 86) on the top-level
view of the working tree: the entry `f` becomes an empty directory, every
other entry is untouched. -/
def emptyAt (tree : String → Option FsEntry) (f : String) : String → Option FsEntry :=
  fun n => if n = f then some (FsEntry.dir []) else tree n

/-- Embedding of the isolation loop of src/main.ts lines 73-95: for each name
in `readdirSync(buildPath)` in order, if the working tree has that entry and
`lstat` says it is a directory, `emptydirSync` it (recorded as an
`Action.emptyDir`); otherwise do nothing.  Returns the actions performed and
the resulting tree. -/
def isolateRun (tree : String → Option FsEntry) :
    List String → List Action × (String → Option FsEntry)
  | [] => ([], tree)
  | f :: fs =>
    match tree f with
    | some (FsEntry.dir _) =>
      let r := isolateRun (emptyAt tree f) fs
      (Action.emptyDir f :: r.1, r.2)
    | _ => isolateRun tree fs

/-- The working tree produced by the isolation loop. -/
def isolate (tree : String → Option FsEntry) (files : List String) :
    String → Option FsEntry :=
  (isolateRun tree files).2

/-- Results of the opaque external collaborators, recorded as an oracle: the
`fs.existsSync(buildDir)` probe (line 28), the `git.remoteBranchExists` probe
(line 47), the top-level entries of the working tree right after tree
establishment (observed by the isolation loop, lines 80-86), the
`readdirSync(buildPath)` listing (line 73), the rejection carried by the
`copy` promise, if any (caught at lines 114-116), the `git.isDirty` result
(line 130), the `git.hasChanges` result (line 143), and the first mailbox
returned by `addressparser` for each string (`none` models an undefined first
element, whose field access throws, lines 137-140 and 152-154). -/
structure World where
  buildDirExists : Bool
  remoteBranchExists : Bool
  tree : String → Option FsEntry
  buildEntries : List String
  copyError : Option String
  isDirty : Bool
  hasChanges : Bool
  parseAddr : String → Option Address

/-- Embedding of the credential segment of the remote URL, src/main.ts lines
33-43: prefer a truthy `GH_PAT` (trimmed, followed by `@`), else a truthy
`GITHUB_TOKEN` (prefixed `x-access-token:`, trimmed, followed by `@`), else
fail (`none`) unless running dry, in which case the segment is empty. -/
def credSegment (env : Env) (dryRun : Bool) : Option String :=
  if truthy env.GH_PAT then
    some (jsTrim (env.GH_PAT.getD "") ++ "@")
  else if truthy env.GITHUB_TOKEN then
    some ("x-access-token:" ++ jsTrim (env.GITHUB_TOKEN.getD "") ++ "@")
  else if !dryRun then
    none
  else
    some ""

/-- The remote URL assembled at src/main.ts lines 33-44:
`https://` ++ credential segment ++ domain ++ `/` ++ repo ++ `.git`, or
`none` when credential resolution fails. -/
def remoteURLOf (env : Env) (dryRun : Bool) (domain repo : String) : Option String :=
  (credSegment env dryRun).map fun c => "https://" ++ c ++ domain ++ "/" ++ repo ++ ".git"

/-- Tree establishment, src/main.ts lines 56-65: clone the existing branch
when `(keepHistory || multipleSites) && remoteBranchExists` (the `guard`
argument), otherwise `git.init` followed by `git.checkout targetBranch`. -/
def establishTrace (guard : Bool) (remoteURL branch : String) : List Action :=
  if guard then [Action.clone remoteURL branch]
  else [Action.gitInit, Action.checkout branch]

/-- Isolation step, src/main.ts lines 68-96: the loop body runs only when
`multipleSites && !keepHistory` (the `doIsol` argument). -/
def isolTrace (doIsol : Bool) (tree : String → Option FsEntry)
    (files : List String) : List Action :=
  if doIsol then (isolateRun tree files).1 else []

/-- Content copy, src/main.ts lines 98-118: the `copy` call always runs; when
its promise rejects the error is caught and logged with `core.error`
(lines 114-116) and execution continues. -/
def copyTrace (dereference : Bool) (copyError : Option String) : List Action :=
  Action.copyDir dereference ::
    (match copyError with
     | some e => [Action.logError e]
     | none => [])

/-- Metadata writes, src/main.ts lines 120-128: a `CNAME` file holding the
trimmed fqdn when the fqdn input is truthy (non-empty), and an empty
`.nojekyll` file when the `jekyll` input matched `/false/i`. -/
def metaTrace (fqdn : String) (nojekyll : Bool) : List Action :=
  (if fqdn = "" then [] else [Action.writeCNAME (jsTrim fqdn)]) ++
    (if nojekyll then [Action.writeNojekyll] else [])

/-- The actions performed from temporary-directory creation (line 49) through
metadata writing (line 128), before the dirty check at line 130. -/
def preTrace (cfg : Config) (w : World) (remoteURL : String) : List Action :=
  Action.mkTmpdir ::
    (establishTrace ((cfg.keepHistory || cfg.multipleSites) && w.remoteBranchExists)
        remoteURL cfg.targetBranch ++
      isolTrace (cfg.multipleSites && !cfg.keepHistory) w.tree w.buildEntries ++
      copyTrace cfg.followSymlinks w.copyError ++
      metaTrace cfg.fqdn cfg.nojekyll)

/-- Embedding of src/main.ts lines 130-170, the steps after the working tree
holds the new content: the early no-changes return for cloned trees
(lines 130-135), committer parsing and identity configuration (lines
137-141), the staged-changes re-check (lines 143-146), staging (line 149),
author parsing and commit with diff-stat (lines 152-158), and the push /
dry-run decision (lines 160-170).  `pre` is the trace accumulated so far. -/
def runAfterTree (cfg : Config) (w : World) (remoteURL : String)
    (pre : List Action) : RunResult :=
  if (cfg.keepHistory || cfg.multipleSites) && w.remoteBranchExists && !w.isDirty then
    { trace := pre, outcome := Outcome.noChangesToCommit }
  else
    match w.parseAddr cfg.committer with
    | none => { trace := pre, outcome := Outcome.failed FailReason.committerUndefined }
    | some cp =>
      let t6 := pre ++ [Action.setConfig "user.name" cp.name,
        Action.setConfig "user.email" cp.address]
      if !w.hasChanges then
        { trace := t6, outcome := Outcome.nothingToDeploy }
      else
        let t7 := t6 ++ [Action.addAll]
        match w.parseAddr cfg.author with
        | none => { trace := t7, outcome := Outcome.failed FailReason.authorUndefined }
        | some ap =>
          let t8 := t7 ++ [Action.commit cfg.allowEmptyCommit
            (ap.name ++ " <" ++ ap.address ++ ">") cfg.commitMessage, Action.showStat]
          if !cfg.dryRun then
            { trace := t8 ++ [Action.push remoteURL cfg.targetBranch (!cfg.keepHistory)],
              outcome := Outcome.pushed }
          else
            { trace := t8 ++ [Action.warn "Push disabled (dry run)"],
              outcome := Outcome.skippedDryRun }

/-- Embedding of `run`, src/main.ts lines 9-176: resolve the configuration,
check the build directory exists (lines 28-31), resolve the credential and
remote URL (lines 33-44), then perform tree establishment, isolation, copy
and metadata writing (`preTrace`) followed by the commit/push decisions
(`runAfterTree`). -/
def run (inp : Inputs) (env : Env) (dfl : Defaults) (w : World) : RunResult :=
  let cfg := resolveConfig inp env dfl
  if w.buildDirExists then
    match remoteURLOf env cfg.dryRun cfg.domain cfg.repo with
    | none => { trace := [], outcome := Outcome.failed FailReason.missingToken }
    | some remoteURL => runAfterTree cfg w remoteURL (preTrace cfg w remoteURL)
  else
    { trace := [], outcome := Outcome.failed FailReason.buildDirMissing }

/-- Matching the literal pattern at the head of the text succeeds exactly
when the lower-cased pattern is a list-prefix of the lower-cased text. -/
theorem matchesAt_iff (pat l : List Char) :
    matchesAt pat l = true ↔ pat.map Char.toLower <+: l.map Char.toLower := by
  induction pat generalizing l with
  | nil => simp [matchesAt]
  | cons p ps ih =>
    cases l with
    | nil => simp [matchesAt]
    | cons c cs =>
      simp [matchesAt, List.cons_prefix_cons, ih, Bool.and_eq_true, beq_iff_eq]

/-- The unanchored scan succeeds exactly when the lower-cased pattern occurs
inside the lower-cased text. -/
theorem searchFrom_iff (pat l : List Char) :
    searchFrom pat l = true ↔ pat.map Char.toLower <:+: l.map Char.toLower := by
  induction l with
  | nil => simp [searchFrom, matchesAt_iff]
  | cons c cs ih =>
    simp [searchFrom, Bool.or_eq_true, matchesAt_iff, ih, List.infix_cons_iff]

/-- The embedded `/pat/i.test(s)` agrees with case-insensitive substring
containment. -/
theorem regexTestCI_eq_containsCI (pat s : String) :
    regexTestCI pat s = containsCI s pat := by
  rw [Bool.eq_iff_iff]
  simp [regexTestCI, containsCI, searchFrom_iff]

/-- Pointwise description of the isolation loop's effect on the working
tree: an entry that is a directory and whose name occurs among the build
entries is emptied; every other entry is unchanged. -/
theorem isolate_pointwise (files : List String) (tree : String → Option FsEntry)
    (n : String) :
    isolate tree files n =
      match tree n with
      | some (FsEntry.dir c) =>
        if n ∈ files then some (FsEntry.dir []) else some (FsEntry.dir c)
      | e => e := by
  induction files generalizing tree with
  | nil =>
    simp only [isolate, isolateRun, List.not_mem_nil, if_false]
    cases h : tree n with
    | none => rfl
    | some e => cases e <;> rfl
  | cons f fs ih =>
    simp only [isolate, isolateRun]
    cases hf : tree f with
    | none =>
      have h2 := ih tree
      by_cases hnf : n = f
      · subst hnf
        simpa [isolate, hf] using h2
      · simpa [isolate, List.mem_cons, hnf] using h2
    | some e =>
      cases e with
      | file s =>
        have h2 := ih tree
        by_cases hnf : n = f
        · subst hnf
          simpa [isolate, hf] using h2
        · simpa [isolate, List.mem_cons, hnf] using h2
      | dir c =>
        have h2 := ih (emptyAt tree f)
        by_cases hnf : n = f
        · subst hnf
          simp only [isolate, emptyAt, if_pos rfl] at h2
          simpa [isolate, hf, List.mem_cons] using h2
        · simp only [isolate, emptyAt, if_neg hnf] at h2
          simpa [isolate, List.mem_cons, hnf] using h2

/-- Every action recorded by the isolation loop empties some directory. -/
theorem isolateRun_actions (files : List String) (tree : String → Option FsEntry) :
    ∀ a ∈ (isolateRun tree files).1, ∃ n, a = Action.emptyDir n := by
  induction files generalizing tree with
  | nil =>
    intro a ha
    simp [isolateRun] at ha
  | cons f fs ih =>
    intro a ha
    simp only [isolateRun] at ha
    cases hf : tree f with
    | none =>
      rw [hf] at ha
      exact ih tree a ha
    | some e =>
      cases e with
      | file s =>
        rw [hf] at ha
        exact ih tree a ha
      | dir c =>
        rw [hf] at ha
        simp only [List.mem_cons] at ha
        rcases ha with h | h
        · exact ⟨f, h⟩
        · exact ih (emptyAt tree f) a h

/-- Classifier for the actions that can only be produced after the dirty
check at src/main.ts line 130: identity configuration, staging, commit,
diff-stat, push and the dry-run warning. -/
def laterAction : Action → Bool
  | Action.setConfig _ _ => true
  | Action.addAll => true
  | Action.commit _ _ _ => true
  | Action.showStat => true
  | Action.push _ _ _ => true
  | Action.warn _ => true
  | _ => false

/-- Membership in the tree-establishment trace. -/
theorem mem_establishTrace (a : Action) (g : Bool) (u b : String) :
    a ∈ establishTrace g u b ↔
      (g = true ∧ a = Action.clone u b) ∨
        (g = false ∧ (a = Action.gitInit ∨ a = Action.checkout b)) := by
  cases g <;> simp [establishTrace]

/-- Every action of the isolation trace empties some directory. -/
theorem mem_isolTrace (d : Bool) (t : String → Option FsEntry) (fs : List String)
    (a : Action) (h : a ∈ isolTrace d t fs) : ∃ n, a = Action.emptyDir n := by
  unfold isolTrace at h
  split at h
  · exact isolateRun_actions fs t a h
  · exact absurd h (List.not_mem_nil a)

/-- Every action of the copy trace is the copy itself or an error log. -/
theorem mem_copyTrace (deref : Bool) (ce : Option String) (a : Action)
    (h : a ∈ copyTrace deref ce) :
    a = Action.copyDir deref ∨ ∃ e, a = Action.logError e := by
  unfold copyTrace at h
  rcases List.mem_cons.mp h with h' | h'
  · exact Or.inl h'
  · right
    cases ce with
    | none => simp at h'
    | some e => simp at h'; exact ⟨e, h'⟩

/-- Every action of the metadata trace writes `CNAME` or `.nojekyll`. -/
theorem mem_metaTrace (f : String) (nj : Bool) (a : Action)
    (h : a ∈ metaTrace f nj) :
    (∃ c, a = Action.writeCNAME c) ∨ a = Action.writeNojekyll := by
  unfold metaTrace at h
  rcases List.mem_append.mp h with h' | h'
  · left
    split at h'
    · simp at h'
    · simp at h'; exact ⟨jsTrim f, h'⟩
  · right
    split at h'
    · simpa using h'
    · simp at h'

/-- Membership in the pre-check trace, split into its four segments. -/
theorem mem_preTrace (a : Action) (cfg : Config) (w : World) (url : String) :
    a ∈ preTrace cfg w url ↔
      a = Action.mkTmpdir ∨
        a ∈ establishTrace
            ((cfg.keepHistory || cfg.multipleSites) && w.remoteBranchExists)
            url cfg.targetBranch ∨
        a ∈ isolTrace (cfg.multipleSites && !cfg.keepHistory) w.tree w.buildEntries ∨
        a ∈ copyTrace cfg.followSymlinks w.copyError ∨
        a ∈ metaTrace cfg.fqdn cfg.nojekyll := by
  simp [preTrace, List.mem_append, or_assoc]

/-- Nothing performed before the dirty check is a post-check action. -/
theorem preTrace_early (cfg : Config) (w : World) (url : String) :
    ∀ a ∈ preTrace cfg w url, laterAction a = false := by
  intro a ha
  rcases (mem_preTrace a cfg w url).mp ha with rfl | ha | ha | ha | ha
  · rfl
  · rcases (mem_establishTrace a _ url cfg.targetBranch).mp ha with ⟨_, rfl⟩ | ⟨_, rfl | rfl⟩ <;> rfl
  · obtain ⟨n, rfl⟩ := mem_isolTrace _ _ _ a ha
    rfl
  · rcases mem_copyTrace _ _ a ha with rfl | ⟨e, rfl⟩ <;> rfl
  · rcases mem_metaTrace _ _ a ha with ⟨c, rfl⟩ | rfl <;> rfl

/-- A clone action occurs in the pre-check trace exactly when the
establishment guard held and it is the clone of the computed URL into the
target branch. -/
theorem clone_mem_preTrace (cfg : Config) (w : World) (url u b : String) :
    Action.clone u b ∈ preTrace cfg w url ↔
      ((cfg.keepHistory || cfg.multipleSites) && w.remoteBranchExists) = true ∧
        u = url ∧ b = cfg.targetBranch := by
  constructor
  · intro ha
    rcases (mem_preTrace _ _ _ _).mp ha with h | h | h | h | h
    · exact absurd h (by simp)
    · rcases (mem_establishTrace _ _ _ _).mp h with ⟨hg, hc⟩ | ⟨_, hc | hc⟩
      · obtain ⟨rfl, rfl⟩ : u = url ∧ b = cfg.targetBranch := by
          simpa using hc
        exact ⟨hg, rfl, rfl⟩
      · simp at hc
      · simp at hc
    · obtain ⟨n, hn⟩ := mem_isolTrace _ _ _ _ h
      simp at hn
    · rcases mem_copyTrace _ _ _ h with hc | ⟨e, hc⟩ <;> simp at hc
    · rcases mem_metaTrace _ _ _ h with ⟨c, hc⟩ | hc <;> simp at hc
  · rintro ⟨hg, rfl, rfl⟩
    rw [mem_preTrace]
    right; left
    rw [mem_establishTrace]
    exact Or.inl ⟨hg, rfl⟩

/-- An init action occurs in the pre-check trace exactly when the
establishment guard failed. -/
theorem gitInit_mem_preTrace (cfg : Config) (w : World) (url : String) :
    Action.gitInit ∈ preTrace cfg w url ↔
      ((cfg.keepHistory || cfg.multipleSites) && w.remoteBranchExists) = false := by
  constructor
  · intro ha
    rcases (mem_preTrace _ _ _ _).mp ha with h | h | h | h | h
    · exact absurd h (by simp)
    · rcases (mem_establishTrace _ _ _ _).mp h with ⟨_, hc⟩ | ⟨hg, _⟩
      · simp at hc
      · exact hg
    · obtain ⟨n, hn⟩ := mem_isolTrace _ _ _ _ h
      simp at hn
    · rcases mem_copyTrace _ _ _ h with hc | ⟨e, hc⟩ <;> simp at hc
    · rcases mem_metaTrace _ _ _ h with ⟨c, hc⟩ | hc <;> simp at hc
  · intro hg
    rw [mem_preTrace]
    right; left
    rw [mem_establishTrace]
    exact Or.inr ⟨hg, Or.inl rfl⟩

/-- A checkout action occurs in the pre-check trace exactly when the
establishment guard failed and it checks out the target branch. -/
theorem checkout_mem_preTrace (cfg : Config) (w : World) (url b : String) :
    Action.checkout b ∈ preTrace cfg w url ↔
      ((cfg.keepHistory || cfg.multipleSites) && w.remoteBranchExists) = false ∧
        b = cfg.targetBranch := by
  constructor
  · intro ha
    rcases (mem_preTrace _ _ _ _).mp ha with h | h | h | h | h
    · exact absurd h (by simp)
    · rcases (mem_establishTrace _ _ _ _).mp h with ⟨_, hc⟩ | ⟨hg, hc | hc⟩
      · simp at hc
      · simp at hc
      · obtain rfl : b = cfg.targetBranch := by simpa using hc
        exact ⟨hg, rfl⟩
    · obtain ⟨n, hn⟩ := mem_isolTrace _ _ _ _ h
      simp at hn
    · rcases mem_copyTrace _ _ _ h with hc | ⟨e, hc⟩ <;> simp at hc
    · rcases mem_metaTrace _ _ _ h with ⟨c, hc⟩ | hc <;> simp at hc
  · rintro ⟨hg, rfl⟩
    rw [mem_preTrace]
    right; left
    rw [mem_establishTrace]
    exact Or.inr ⟨hg, Or.inr rfl⟩

/-- Unfolding of `run` once the build directory exists and the credential
resolves: the run is the post-establishment logic applied to the pre-check
trace. -/
theorem run_eq (inp : Inputs) (env : Env) (dfl : Defaults) (w : World) (u : String)
    (hb : w.buildDirExists = true)
    (hc : remoteURLOf env (resolveConfig inp env dfl).dryRun
        (resolveConfig inp env dfl).domain (resolveConfig inp env dfl).repo = some u) :
    run inp env dfl w =
      runAfterTree (resolveConfig inp env dfl) w u
        (preTrace (resolveConfig inp env dfl) w u) := by
  simp [run, hb, hc]

/-- Leaf of `runAfterTree` taken when the tree came from a clone and is
clean: the run stops with no further action. -/
theorem runAfterTree_clean (cfg : Config) (w : World) (url : String)
    (pre : List Action)
    (h : ((cfg.keepHistory || cfg.multipleSites) && w.remoteBranchExists && !w.isDirty) = true) :
    runAfterTree cfg w url pre = ⟨pre, Outcome.noChangesToCommit⟩ := by
  simp [runAfterTree, h]

/-- Leaf of `runAfterTree` taken when the committer string has no parseable
mailbox: the caught TypeError ends the run with no further action. -/
theorem runAfterTree_committerNone (cfg : Config) (w : World) (url : String)
    (pre : List Action)
    (h : ((cfg.keepHistory || cfg.multipleSites) && w.remoteBranchExists && !w.isDirty) = false)
    (hcp : w.parseAddr cfg.committer = none) :
    runAfterTree cfg w url pre = ⟨pre, Outcome.failed FailReason.committerUndefined⟩ := by
  simp [runAfterTree, h, hcp]

/-- Leaf of `runAfterTree` taken when, after the identity has been
configured, there are no staged changes. -/
theorem runAfterTree_noDeploy (cfg : Config) (w : World) (url : String)
    (pre : List Action) (cp : Address)
    (h : ((cfg.keepHistory || cfg.multipleSites) && w.remoteBranchExists && !w.isDirty) = false)
    (hcp : w.parseAddr cfg.committer = some cp)
    (hch : w.hasChanges = false) :
    runAfterTree cfg w url pre =
      ⟨pre ++ [Action.setConfig "user.name" cp.name,
        Action.setConfig "user.email" cp.address], Outcome.nothingToDeploy⟩ := by
  simp [runAfterTree, h, hcp, hch]

/-- Leaf of `runAfterTree` taken when the author string has no parseable
mailbox: the caught TypeError ends the run after identity configuration and
staging. -/
theorem runAfterTree_authorNone (cfg : Config) (w : World) (url : String)
    (pre : List Action) (cp : Address)
    (h : ((cfg.keepHistory || cfg.multipleSites) && w.remoteBranchExists && !w.isDirty) = false)
    (hcp : w.parseAddr cfg.committer = some cp)
    (hch : w.hasChanges = true)
    (hap : w.parseAddr cfg.author = none) :
    runAfterTree cfg w url pre =
      ⟨pre ++ [Action.setConfig "user.name" cp.name,
        Action.setConfig "user.email" cp.address, Action.addAll],
        Outcome.failed FailReason.authorUndefined⟩ := by
  simp [runAfterTree, h, hcp, hch, hap]

/-- Leaf of `runAfterTree` taken on the real push path: commit then push,
with force exactly when history is not kept. -/
theorem runAfterTree_commitPush (cfg : Config) (w : World) (url : String)
    (pre : List Action) (cp ap : Address)
    (h : ((cfg.keepHistory || cfg.multipleSites) && w.remoteBranchExists && !w.isDirty) = false)
    (hcp : w.parseAddr cfg.committer = some cp)
    (hch : w.hasChanges = true)
    (hap : w.parseAddr cfg.author = some ap)
    (hdr : cfg.dryRun = false) :
    runAfterTree cfg w url pre =
      ⟨pre ++ [Action.setConfig "user.name" cp.name,
        Action.setConfig "user.email" cp.address, Action.addAll,
        Action.commit cfg.allowEmptyCommit (ap.name ++ " <" ++ ap.address ++ ">")
          cfg.commitMessage, Action.showStat,
        Action.push url cfg.targetBranch (!cfg.keepHistory)], Outcome.pushed⟩ := by
  simp [runAfterTree, h, hcp, hch, hap, hdr]

/-- Leaf of `runAfterTree` taken on the dry-run path: commit, then a warning
instead of a push. -/
theorem runAfterTree_dryRun (cfg : Config) (w : World) (url : String)
    (pre : List Action) (cp ap : Address)
    (h : ((cfg.keepHistory || cfg.multipleSites) && w.remoteBranchExists && !w.isDirty) = false)
    (hcp : w.parseAddr cfg.committer = some cp)
    (hch : w.hasChanges = true)
    (hap : w.parseAddr cfg.author = some ap)
    (hdr : cfg.dryRun = true) :
    runAfterTree cfg w url pre =
      ⟨pre ++ [Action.setConfig "user.name" cp.name,
        Action.setConfig "user.email" cp.address, Action.addAll,
        Action.commit cfg.allowEmptyCommit (ap.name ++ " <" ++ ap.address ++ ">")
          cfg.commitMessage, Action.showStat,
        Action.warn "Push disabled (dry run)"], Outcome.skippedDryRun⟩ := by
  simp [runAfterTree, h, hcp, hch, hap, hdr]

/-- Every action of the post-establishment logic either was already in the
pre-check trace or is a post-check action. -/
theorem runAfterTree_shape (cfg : Config) (w : World) (url : String)
    (pre : List Action) :
    ∀ a ∈ (runAfterTree cfg w url pre).trace, a ∈ pre ∨ laterAction a = true := by
  intro a ha
  by_cases h : ((cfg.keepHistory || cfg.multipleSites) && w.remoteBranchExists && !w.isDirty) = true
  · rw [runAfterTree_clean cfg w url pre h] at ha
    exact Or.inl ha
  · have h' : ((cfg.keepHistory || cfg.multipleSites) && w.remoteBranchExists && !w.isDirty) = false := by
      simpa using h
    cases hcp : w.parseAddr cfg.committer with
    | none =>
      rw [runAfterTree_committerNone cfg w url pre h' hcp] at ha
      exact Or.inl ha
    | some cp =>
      cases hch : w.hasChanges with
      | false =>
        rw [runAfterTree_noDeploy cfg w url pre cp h' hcp hch] at ha
        rcases List.mem_append.mp ha with hm | hm
        · exact Or.inl hm
        · right
          simp at hm
          rcases hm with rfl | rfl <;> rfl
      | true =>
        cases hap : w.parseAddr cfg.author with
        | none =>
          rw [runAfterTree_authorNone cfg w url pre cp h' hcp hch hap] at ha
          rcases List.mem_append.mp ha with hm | hm
          · exact Or.inl hm
          · right
            simp at hm
            rcases hm with rfl | rfl | rfl <;> rfl
        | some ap =>
          cases hdr : cfg.dryRun with
          | false =>
            rw [runAfterTree_commitPush cfg w url pre cp ap h' hcp hch hap hdr] at ha
            rcases List.mem_append.mp ha with hm | hm
            · exact Or.inl hm
            · right
              simp at hm
              rcases hm with rfl | rfl | rfl | rfl | rfl | rfl <;> rfl
          | true =>
            rw [runAfterTree_dryRun cfg w url pre cp ap h' hcp hch hap hdr] at ha
            rcases List.mem_append.mp ha with hm | hm
            · exact Or.inl hm
            · right
              simp at hm
              rcases hm with rfl | rfl | rfl | rfl | rfl | rfl <;> rfl

/-- The pre-check trace is contained in the final trace. -/
theorem runAfterTree_pre_sub (cfg : Config) (w : World) (url : String)
    (pre : List Action) :
    ∀ a ∈ pre, a ∈ (runAfterTree cfg w url pre).trace := by
  intro a ha
  by_cases h : ((cfg.keepHistory || cfg.multipleSites) && w.remoteBranchExists && !w.isDirty) = true
  · rw [runAfterTree_clean cfg w url pre h]
    exact ha
  · have h' : ((cfg.keepHistory || cfg.multipleSites) && w.remoteBranchExists && !w.isDirty) = false := by
      simpa using h
    cases hcp : w.parseAddr cfg.committer with
    | none =>
      rw [runAfterTree_committerNone cfg w url pre h' hcp]
      exact ha
    | some cp =>
      cases hch : w.hasChanges with
      | false =>
        rw [runAfterTree_noDeploy cfg w url pre cp h' hcp hch]
        exact List.mem_append_left _ ha
      | true =>
        cases hap : w.parseAddr cfg.author with
        | none =>
          rw [runAfterTree_authorNone cfg w url pre cp h' hcp hch hap]
          exact List.mem_append_left _ ha
        | some ap =>
          cases hdr : cfg.dryRun with
          | false =>
            rw [runAfterTree_commitPush cfg w url pre cp ap h' hcp hch hap hdr]
            exact List.mem_append_left _ ha
          | true =>
            rw [runAfterTree_dryRun cfg w url pre cp ap h' hcp hch hap hdr]
            exact List.mem_append_left _ ha

/-- The post-establishment logic ends in the early no-changes outcome exactly
when the tree came from a clone and is clean. -/
theorem runAfterTree_noChanges_iff (cfg : Config) (w : World) (url : String)
    (pre : List Action) :
    (runAfterTree cfg w url pre).outcome = Outcome.noChangesToCommit ↔
      ((cfg.keepHistory || cfg.multipleSites) && w.remoteBranchExists && !w.isDirty) = true := by
  unfold runAfterTree
  split
  next h => simpa using h
  next h =>
    simp only [Bool.not_eq_true] at h
    rw [h]
    split
    · simp
    · split
      · simp
      · split
        · simp
        · split <;> simp

/-- The post-establishment logic never fails for a missing token or a missing
build directory: those are pre-establishment failures. -/
theorem runAfterTree_no_pre_failure (cfg : Config) (w : World) (url : String)
    (pre : List Action) :
    (runAfterTree cfg w url pre).outcome ≠ Outcome.failed FailReason.missingToken ∧
      (runAfterTree cfg w url pre).outcome ≠ Outcome.failed FailReason.buildDirMissing := by
  unfold runAfterTree
  split
  · simp
  · split
    · simp
    · split
      · simp
      · split
        · simp
        · split <;> simp

/-- A run can end in the early no-changes outcome only when the clone guard
and the cleanliness check both held. -/
theorem run_noChanges_cond (inp : Inputs) (env : Env) (dfl : Defaults) (w : World)
    (h : (run inp env dfl w).outcome = Outcome.noChangesToCommit) :
    (((resolveConfig inp env dfl).keepHistory || (resolveConfig inp env dfl).multipleSites) &&
        w.remoteBranchExists && !w.isDirty) = true := by
  cases hb : w.buildDirExists with
  | false => simp [run, hb] at h
  | true =>
    cases hc : remoteURLOf env (resolveConfig inp env dfl).dryRun
        (resolveConfig inp env dfl).domain (resolveConfig inp env dfl).repo with
    | none => simp [run, hb, hc] at h
    | some u =>
      rw [run_eq inp env dfl w u hb hc] at h
      exact (runAfterTree_noChanges_iff _ _ _ _).mp h

/-- Concrete defaults standing in for `git.defaults` in witnesses. -/
def exDfl : Defaults :=
  { targetBranch := "gh-pages", committer := "C <c@x.y>", author := "A <a@x.y>",
    message := "deploy" }

/-- Concrete action inputs used by witnesses: a plain run with no mode flag
set and parseable identities. -/
def exInp : Inputs :=
  { domain := "", repo := "me/site", target_branch := "", keep_history := "",
    multiple_sites := "", allow_empty_commit := "", build_dir := "public",
    absolute_build_dir := "", follow_symlinks := "", committer := "C <c@x.y>",
    author := "A <a@x.y>", commit_message := "msg", fqdn := "", jekyll := "",
    dry_run := "", verbose := "" }

/-- Concrete environment holding a personal access token. -/
def exEnv : Env := { GH_PAT := some "PAT", GITHUB_TOKEN := none, GITHUB_REPOSITORY := none }

/-- Concrete environment holding only the platform token. -/
def exEnvTok : Env := { GH_PAT := none, GITHUB_TOKEN := some "TOK", GITHUB_REPOSITORY := none }

/-- Concrete environment with no credential at all. -/
def exEnvNone : Env := { GH_PAT := none, GITHUB_TOKEN := none, GITHUB_REPOSITORY := none }

/-- Concrete mailbox-parsing oracle: the two identities used by `exInp`
parse, everything else has no first mailbox. -/
def exParse : String → Option Address := fun s =>
  if s = "C <c@x.y>" then some { name := "C", address := "c@x.y" }
  else if s = "A <a@x.y>" then some { name := "A", address := "a@x.y" }
  else none

/-- Concrete working-tree top level used by witnesses: two sibling site
directories and one plain file. -/
def exTree : String → Option FsEntry := fun n =>
  if n = "siteA" then some (FsEntry.dir ["old"])
  else if n = "siteB" then some (FsEntry.dir ["stale1", "stale2"])
  else if n = "file.txt" then some (FsEntry.file "payload")
  else none

/-- Concrete collaborator oracle: build directory present, remote branch
present, a dirty tree with staged changes, and a clean copy. -/
def exW : World :=
  { buildDirExists := true, remoteBranchExists := true, tree := exTree,
    buildEntries := ["siteB", "file.txt", "newdir"], copyError := none,
    isDirty := true, hasChanges := true, parseAddr := exParse }

/-- C5: for every configuration, when the build directory does not exist the
run ends `Failed` with an empty trace: no credential-resolution effect, no
temporary directory, no clone or init, no copy — the check at src/main.ts
lines 28-31 precedes every effectful step. -/
theorem missing_build_dir_fails_first (inp : Inputs) (env : Env) (dfl : Defaults)
    (w : World) (hb : w.buildDirExists = false) :
    run inp env dfl w = ⟨[], Outcome.failed FailReason.buildDirMissing⟩ := by
  simp [run, hb]

/-- Witness for `missing_build_dir_fails_first` at a concrete input. -/
theorem missing_build_dir_fails_first_witness :
    run exInp exEnvNone exDfl { exW with buildDirExists := false } =
      ⟨[], Outcome.failed FailReason.buildDirMissing⟩ :=
  missing_build_dir_fails_first exInp exEnvNone exDfl
    { exW with buildDirExists := false } rfl

/-- C10: every boolean mode flag is true exactly when its raw input contains
the substring "true" ignoring case, and the `.nojekyll` flag is set exactly
when the `jekyll` input contains "false" ignoring case; the sentinel itself
is written exactly when that flag is set.  In particular "untrue" counts as
true while "", "yes" and "1" do not. -/
theorem bool_inputs_substring_semantics (inp : Inputs) (env : Env) (dfl : Defaults) :
    ((resolveConfig inp env dfl).keepHistory = containsCI inp.keep_history "true") ∧
    ((resolveConfig inp env dfl).multipleSites = containsCI inp.multiple_sites "true") ∧
    ((resolveConfig inp env dfl).allowEmptyCommit = containsCI inp.allow_empty_commit "true") ∧
    ((resolveConfig inp env dfl).absoluteBuildDir = containsCI inp.absolute_build_dir "true") ∧
    ((resolveConfig inp env dfl).followSymlinks = containsCI inp.follow_symlinks "true") ∧
    ((resolveConfig inp env dfl).dryRun = containsCI inp.dry_run "true") ∧
    ((resolveConfig inp env dfl).verbose = containsCI inp.verbose "true") ∧
    ((resolveConfig inp env dfl).nojekyll = containsCI inp.jekyll "false") ∧
    (∀ f nj, Action.writeNojekyll ∈ metaTrace f nj ↔ nj = true) ∧
    containsCI "untrue" "true" = true ∧ containsCI "" "true" = false ∧
    containsCI "yes" "true" = false ∧ containsCI "1" "true" = false := by
  refine ⟨?_, ?_, ?_, ?_, ?_, ?_, ?_, ?_, ?_, by decide, by decide, by decide, by decide⟩
  · simp [resolveConfig, regexTestCI_eq_containsCI]
  · simp [resolveConfig, regexTestCI_eq_containsCI]
  · simp [resolveConfig, regexTestCI_eq_containsCI]
  · simp [resolveConfig, regexTestCI_eq_containsCI]
  · simp [resolveConfig, regexTestCI_eq_containsCI]
  · simp [resolveConfig, regexTestCI_eq_containsCI]
  · simp [resolveConfig, regexTestCI_eq_containsCI]
  · simp [resolveConfig, regexTestCI_eq_containsCI]
  · intro f nj
    cases nj <;> simp [metaTrace, List.mem_append]

/-- C2: the isolation step touches no working-tree entry whose name is
absent from the build output's top level; a same-named directory is emptied
but retained; a same-named non-directory entry and a missing entry are left
as they are.  Moreover, within a run whose configuration has
`multipleSites` and not `keepHistory`, the emptied directories of the run's
trace are exactly those of the isolation loop over the oracle's tree and
build entries. -/
theorem isolation_frame_and_empty (tree : String → Option FsEntry) (files : List String) :
    (∀ n, n ∉ files → isolate tree files n = tree n) ∧
    (∀ n c, tree n = some (FsEntry.dir c) → n ∈ files →
      isolate tree files n = some (FsEntry.dir [])) ∧
    (∀ n s, tree n = some (FsEntry.file s) → isolate tree files n = some (FsEntry.file s)) ∧
    (∀ n, tree n = none → isolate tree files n = none) ∧
    (∀ inp env dfl (w : World) u n,
      (resolveConfig inp env dfl).multipleSites = true →
      (resolveConfig inp env dfl).keepHistory = false →
      w.buildDirExists = true →
      remoteURLOf env (resolveConfig inp env dfl).dryRun
        (resolveConfig inp env dfl).domain (resolveConfig inp env dfl).repo = some u →
      (Action.emptyDir n ∈ (run inp env dfl w).trace ↔
        Action.emptyDir n ∈ (isolateRun w.tree w.buildEntries).1)) := by
  refine ⟨?_, ?_, ?_, ?_, ?_⟩
  · intro n hn
    rw [isolate_pointwise]
    cases htn : tree n with
    | none => rfl
    | some e =>
      cases e with
      | dir c => simp [hn]
      | file s => rfl
  · intro n c hd hm
    rw [isolate_pointwise, hd]
    simp [hm]
  · intro n s hf
    rw [isolate_pointwise, hf]
  · intro n h0
    rw [isolate_pointwise, h0]
  · intro inp env dfl w u n hm hk hb hc
    rw [run_eq inp env dfl w u hb hc]
    constructor
    · intro ha
      rcases runAfterTree_shape _ _ _ _ _ ha with hp | hl
      · rcases (mem_preTrace _ _ _ _).mp hp with h | h | h | h | h
        · simp at h
        · rcases (mem_establishTrace _ _ _ _).mp h with ⟨_, hcm⟩ | ⟨_, hcm | hcm⟩ <;>
            simp at hcm
        · unfold isolTrace at h
          rw [hm, hk] at h
          simpa using h
        · rcases mem_copyTrace _ _ _ h with hcm | ⟨e, hcm⟩ <;> simp at hcm
        · rcases mem_metaTrace _ _ _ h with ⟨c, hcm⟩ | hcm <;> simp at hcm
      · simp [laterAction] at hl
    · intro ha
      apply runAfterTree_pre_sub
      rw [mem_preTrace]
      right; right; left
      unfold isolTrace
      rw [hm, hk]
      simpa using ha

/-- Witness for `isolation_frame_and_empty` at a concrete tree and entry
list: a sibling site not in the build is untouched, a site in the build is
emptied, a plain file and a missing entry are untouched. -/
theorem isolation_frame_and_empty_witness :
    isolate exTree ["siteB", "file.txt", "newdir"] "siteA" = some (FsEntry.dir ["old"]) ∧
    isolate exTree ["siteB", "file.txt", "newdir"] "siteB" = some (FsEntry.dir []) ∧
    isolate exTree ["siteB", "file.txt", "newdir"] "file.txt" =
      some (FsEntry.file "payload") ∧
    isolate exTree ["siteB", "file.txt", "newdir"] "newdir" = none := by
  refine ⟨?_, ?_, ?_, ?_⟩
  · have h := (isolation_frame_and_empty exTree ["siteB", "file.txt", "newdir"]).1
      "siteA" (by decide)
    rw [h]
    rfl
  · exact (isolation_frame_and_empty exTree ["siteB", "file.txt", "newdir"]).2.1
      "siteB" ["stale1", "stale2"] rfl (by decide)
  · exact (isolation_frame_and_empty exTree ["siteB", "file.txt", "newdir"]).2.2.1
      "file.txt" "payload" rfl
  · exact (isolation_frame_and_empty exTree ["siteB", "file.txt", "newdir"]).2.2.2.1
      "newdir" rfl

/-- C1: with the build directory present and a resolvable credential, the
run's trace contains a clone exactly when `(keepHistory || multipleSites)`
holds and the remote branch exists; in every other case the trace contains
`git.init` followed by a checkout of the target branch name, and no clone. -/
theorem tree_establishment_clone_iff (inp : Inputs) (env : Env) (dfl : Defaults)
    (w : World) (u : String)
    (hb : w.buildDirExists = true)
    (hc : remoteURLOf env (resolveConfig inp env dfl).dryRun
        (resolveConfig inp env dfl).domain (resolveConfig inp env dfl).repo = some u) :
    ((∃ u' b, Action.clone u' b ∈ (run inp env dfl w).trace) ↔
      (((resolveConfig inp env dfl).keepHistory ||
          (resolveConfig inp env dfl).multipleSites) && w.remoteBranchExists) = true) ∧
    ((((resolveConfig inp env dfl).keepHistory ||
        (resolveConfig inp env dfl).multipleSites) && w.remoteBranchExists) = false →
      Action.gitInit ∈ (run inp env dfl w).trace ∧
        Action.checkout (resolveConfig inp env dfl).targetBranch ∈ (run inp env dfl w).trace) ∧
    ((((resolveConfig inp env dfl).keepHistory ||
        (resolveConfig inp env dfl).multipleSites) && w.remoteBranchExists) = true →
      Action.clone u (resolveConfig inp env dfl).targetBranch ∈ (run inp env dfl w).trace ∧
        Action.gitInit ∉ (run inp env dfl w).trace) := by
  rw [run_eq inp env dfl w u hb hc]
  refine ⟨⟨?_, ?_⟩, ?_, ?_⟩
  · rintro ⟨u', b, hm⟩
    rcases runAfterTree_shape _ _ _ _ _ hm with hp | hl
    · exact ((clone_mem_preTrace _ _ _ _ _).mp hp).1
    · simp [laterAction] at hl
  · intro hg
    exact ⟨u, (resolveConfig inp env dfl).targetBranch,
      runAfterTree_pre_sub _ _ _ _ _
        ((clone_mem_preTrace _ _ _ _ _).mpr ⟨hg, rfl, rfl⟩)⟩
  · intro hg
    constructor
    · exact runAfterTree_pre_sub _ _ _ _ _
        ((gitInit_mem_preTrace _ _ _).mpr hg)
    · exact runAfterTree_pre_sub _ _ _ _ _
        ((checkout_mem_preTrace _ _ _ _).mpr ⟨hg, rfl⟩)
  · intro hg
    constructor
    · exact runAfterTree_pre_sub _ _ _ _ _
        ((clone_mem_preTrace _ _ _ _ _).mpr ⟨hg, rfl, rfl⟩)
    · intro hm
      rcases runAfterTree_shape _ _ _ _ _ hm with hp | hl
      · rw [(gitInit_mem_preTrace _ _ _).mp hp] at hg
        exact Bool.false_ne_true hg
      · simp [laterAction] at hl

/-- Witness for `tree_establishment_clone_iff`: with `keep_history="true"`
and an existing remote branch the concrete run clones and never inits. -/
theorem tree_establishment_clone_iff_witness :
    ((∃ u' b, Action.clone u' b ∈
        (run { exInp with keep_history := "true" } exEnv exDfl exW).trace) ↔
      (((resolveConfig { exInp with keep_history := "true" } exEnv exDfl).keepHistory ||
          (resolveConfig { exInp with keep_history := "true" } exEnv exDfl).multipleSites) &&
        exW.remoteBranchExists) = true) ∧
    ((((resolveConfig { exInp with keep_history := "true" } exEnv exDfl).keepHistory ||
        (resolveConfig { exInp with keep_history := "true" } exEnv exDfl).multipleSites) &&
      exW.remoteBranchExists) = false →
      Action.gitInit ∈ (run { exInp with keep_history := "true" } exEnv exDfl exW).trace ∧
        Action.checkout (resolveConfig { exInp with keep_history := "true" } exEnv exDfl).targetBranch ∈
          (run { exInp with keep_history := "true" } exEnv exDfl exW).trace) ∧
    ((((resolveConfig { exInp with keep_history := "true" } exEnv exDfl).keepHistory ||
        (resolveConfig { exInp with keep_history := "true" } exEnv exDfl).multipleSites) &&
      exW.remoteBranchExists) = true →
      Action.clone "https://PAT@github.com/me/site.git"
          (resolveConfig { exInp with keep_history := "true" } exEnv exDfl).targetBranch ∈
          (run { exInp with keep_history := "true" } exEnv exDfl exW).trace ∧
        Action.gitInit ∉ (run { exInp with keep_history := "true" } exEnv exDfl exW).trace) :=
  tree_establishment_clone_iff { exInp with keep_history := "true" } exEnv exDfl exW
    "https://PAT@github.com/me/site.git" rfl (by decide)

/-- C3: with the build directory present and a resolvable credential, when
the tree came from a clone (guard true) and `git.isDirty` is false the run
ends in the early no-changes outcome having performed no identity
configuration, no staging, no commit, no push and no warning; and no run
whose establishment guard is false ever ends in that outcome. -/
theorem early_no_changes_skip (inp : Inputs) (env : Env) (dfl : Defaults)
    (w : World) (u : String)
    (hb : w.buildDirExists = true)
    (hc : remoteURLOf env (resolveConfig inp env dfl).dryRun
        (resolveConfig inp env dfl).domain (resolveConfig inp env dfl).repo = some u)
    (hg : (((resolveConfig inp env dfl).keepHistory ||
        (resolveConfig inp env dfl).multipleSites) && w.remoteBranchExists) = true)
    (hd : w.isDirty = false) :
    (run inp env dfl w).outcome = Outcome.noChangesToCommit ∧
    (∀ a ∈ (run inp env dfl w).trace, laterAction a = false) ∧
    (∀ (inp' : Inputs) (env' : Env) (dfl' : Defaults) (w' : World),
      (((resolveConfig inp' env' dfl').keepHistory ||
          (resolveConfig inp' env' dfl').multipleSites) && w'.remoteBranchExists) = false →
      (run inp' env' dfl' w').outcome ≠ Outcome.noChangesToCommit) := by
  have hga : ((resolveConfig inp env dfl).keepHistory ||
      (resolveConfig inp env dfl).multipleSites) = true ∧ w.remoteBranchExists = true := by
    simpa using hg
  have hcond : (((resolveConfig inp env dfl).keepHistory ||
      (resolveConfig inp env dfl).multipleSites) && w.remoteBranchExists && !w.isDirty) = true := by
    simp [hga.1, hga.2, hd]
  rw [run_eq inp env dfl w u hb hc, runAfterTree_clean _ _ _ _ hcond]
  refine ⟨rfl, preTrace_early _ _ _, ?_⟩
  intro inp' env' dfl' w' hg' hout
  have hcond' := run_noChanges_cond inp' env' dfl' w' hout
  have hsplit : (((resolveConfig inp' env' dfl').keepHistory = true ∨
      (resolveConfig inp' env' dfl').multipleSites = true) ∧
      w'.remoteBranchExists = true) ∧ w'.isDirty = false := by
    simpa using hcond'
  have hgt : ((resolveConfig inp' env' dfl').keepHistory ||
      (resolveConfig inp' env' dfl').multipleSites) = true := by
    rcases hsplit.1.1 with h | h <;> simp [h]
  rw [hgt, hsplit.1.2] at hg'
  simp at hg' 

/-- Witness for `early_no_changes_skip`: a clean cloned tree with
`keep_history="true"` skips with no post-check action. -/
theorem early_no_changes_skip_witness :
    (run { exInp with keep_history := "true" } exEnv exDfl
        { exW with isDirty := false }).outcome = Outcome.noChangesToCommit ∧
    (∀ a ∈ (run { exInp with keep_history := "true" } exEnv exDfl
        { exW with isDirty := false }).trace, laterAction a = false) ∧
    (∀ (inp' : Inputs) (env' : Env) (dfl' : Defaults) (w' : World),
      (((resolveConfig inp' env' dfl').keepHistory ||
          (resolveConfig inp' env' dfl').multipleSites) && w'.remoteBranchExists) = false →
      (run inp' env' dfl' w').outcome ≠ Outcome.noChangesToCommit) :=
  early_no_changes_skip { exInp with keep_history := "true" } exEnv exDfl
    { exW with isDirty := false } "https://PAT@github.com/me/site.git"
    rfl (by decide) (by decide) rfl

/-- C9: when the run reaches identity configuration (guard-and-clean exit
not taken), the committer parses, and there are no staged changes, the run
ends in the staged-no-changes outcome; its trace is the pre-check trace
followed by exactly the two `git config` writes — the configured identity is
the only effect of that branch — with no staging, no commit and no push. -/
theorem no_staged_changes_after_identity (inp : Inputs) (env : Env) (dfl : Defaults)
    (w : World) (u : String) (cp : Address)
    (hb : w.buildDirExists = true)
    (hc : remoteURLOf env (resolveConfig inp env dfl).dryRun
        (resolveConfig inp env dfl).domain (resolveConfig inp env dfl).repo = some u)
    (hnd : (((resolveConfig inp env dfl).keepHistory ||
        (resolveConfig inp env dfl).multipleSites) && w.remoteBranchExists && !w.isDirty) = false)
    (hcp : w.parseAddr (resolveConfig inp env dfl).committer = some cp)
    (hch : w.hasChanges = false) :
    (run inp env dfl w).outcome = Outcome.nothingToDeploy ∧
    (run inp env dfl w).trace =
      preTrace (resolveConfig inp env dfl) w u ++
        [Action.setConfig "user.name" cp.name, Action.setConfig "user.email" cp.address] ∧
    Action.addAll ∉ (run inp env dfl w).trace ∧
    (∀ e a m, Action.commit e a m ∉ (run inp env dfl w).trace) ∧
    (∀ u' b f, Action.push u' b f ∉ (run inp env dfl w).trace) := by
  rw [run_eq inp env dfl w u hb hc, runAfterTree_noDeploy _ _ _ _ cp hnd hcp hch]
  refine ⟨rfl, rfl, ?_, ?_, ?_⟩
  · intro hm
    rcases List.mem_append.mp hm with hp | hp
    · have := preTrace_early _ _ _ _ hp
      simp [laterAction] at this
    · simp at hp
  · intro e a m hm
    rcases List.mem_append.mp hm with hp | hp
    · have := preTrace_early _ _ _ _ hp
      simp [laterAction] at this
    · simp at hp
  · intro u' b f hm
    rcases List.mem_append.mp hm with hp | hp
    · have := preTrace_early _ _ _ _ hp
      simp [laterAction] at this
    · simp at hp

/-- Witness for `no_staged_changes_after_identity`: a dirty cloned tree with
nothing staged configures the identity and stops. -/
theorem no_staged_changes_after_identity_witness :
    (run { exInp with keep_history := "true" } exEnv exDfl
        { exW with hasChanges := false }).outcome = Outcome.nothingToDeploy ∧
    (run { exInp with keep_history := "true" } exEnv exDfl
        { exW with hasChanges := false }).trace =
      preTrace (resolveConfig { exInp with keep_history := "true" } exEnv exDfl)
          { exW with hasChanges := false } "https://PAT@github.com/me/site.git" ++
        [Action.setConfig "user.name" ({ name := "C", address := "c@x.y" } : Address).name,
          Action.setConfig "user.email" ({ name := "C", address := "c@x.y" } : Address).address] ∧
    Action.addAll ∉ (run { exInp with keep_history := "true" } exEnv exDfl
        { exW with hasChanges := false }).trace ∧
    (∀ e a m, Action.commit e a m ∉ (run { exInp with keep_history := "true" } exEnv exDfl
        { exW with hasChanges := false }).trace) ∧
    (∀ u' b f, Action.push u' b f ∉ (run { exInp with keep_history := "true" } exEnv exDfl
        { exW with hasChanges := false }).trace) :=
  no_staged_changes_after_identity { exInp with keep_history := "true" } exEnv exDfl
    { exW with hasChanges := false } "https://PAT@github.com/me/site.git"
    { name := "C", address := "c@x.y" } rfl (by decide) (by decide) (by decide) rfl

/-- C4: once the run reaches the commit (guard-and-clean exit not taken,
committer parses, changes staged, author parses), a commit action is in the
trace; if `dryRun` the push is skipped entirely, a warning is emitted and the
outcome is the dry-run skip; otherwise the branch is pushed to the computed
remote URL and every push in the trace is forced exactly when `keepHistory`
is false. -/
theorem push_decision (inp : Inputs) (env : Env) (dfl : Defaults)
    (w : World) (u : String) (cp ap : Address)
    (hb : w.buildDirExists = true)
    (hc : remoteURLOf env (resolveConfig inp env dfl).dryRun
        (resolveConfig inp env dfl).domain (resolveConfig inp env dfl).repo = some u)
    (hnd : (((resolveConfig inp env dfl).keepHistory ||
        (resolveConfig inp env dfl).multipleSites) && w.remoteBranchExists && !w.isDirty) = false)
    (hcp : w.parseAddr (resolveConfig inp env dfl).committer = some cp)
    (hch : w.hasChanges = true)
    (hap : w.parseAddr (resolveConfig inp env dfl).author = some ap) :
    (∃ e a m, Action.commit e a m ∈ (run inp env dfl w).trace) ∧
    ((resolveConfig inp env dfl).dryRun = true →
      (run inp env dfl w).outcome = Outcome.skippedDryRun ∧
      Action.warn "Push disabled (dry run)" ∈ (run inp env dfl w).trace ∧
      (∀ u' b f, Action.push u' b f ∉ (run inp env dfl w).trace)) ∧
    ((resolveConfig inp env dfl).dryRun = false →
      (run inp env dfl w).outcome = Outcome.pushed ∧
      Action.push u (resolveConfig inp env dfl).targetBranch
        (!(resolveConfig inp env dfl).keepHistory) ∈ (run inp env dfl w).trace ∧
      (∀ u' b f, Action.push u' b f ∈ (run inp env dfl w).trace →
        u' = u ∧ b = (resolveConfig inp env dfl).targetBranch ∧
          f = !(resolveConfig inp env dfl).keepHistory)) := by
  rw [run_eq inp env dfl w u hb hc]
  cases hdr : (resolveConfig inp env dfl).dryRun with
  | true =>
    rw [runAfterTree_dryRun _ _ _ _ cp ap hnd hcp hch hap hdr]
    refine ⟨⟨(resolveConfig inp env dfl).allowEmptyCommit,
      ap.name ++ " <" ++ ap.address ++ ">", (resolveConfig inp env dfl).commitMessage,
      List.mem_append_right _ (by simp)⟩, ?_, ?_⟩
    · intro _
      refine ⟨rfl, List.mem_append_right _ (by simp), ?_⟩
      intro u' b f hm
      rcases List.mem_append.mp hm with hp | hp
      · have := preTrace_early _ _ _ _ hp
        simp [laterAction] at this
      · simp at hp
    · intro hdr'
      exact absurd hdr' (by simp)
  | false =>
    rw [runAfterTree_commitPush _ _ _ _ cp ap hnd hcp hch hap hdr]
    refine ⟨⟨(resolveConfig inp env dfl).allowEmptyCommit,
      ap.name ++ " <" ++ ap.address ++ ">", (resolveConfig inp env dfl).commitMessage,
      List.mem_append_right _ (by simp)⟩, ?_, ?_⟩
    · intro hdr'
      exact absurd hdr' (by simp)
    · intro _
      refine ⟨rfl, List.mem_append_right _ (by simp), ?_⟩
      intro u' b f hm
      rcases List.mem_append.mp hm with hp | hp
      · have := preTrace_early _ _ _ _ hp
        simp [laterAction] at this
      · simp only [List.mem_cons, List.not_mem_nil, or_false] at hp
        rcases hp with hp | hp | hp | hp | hp | hp <;> simp at hp
        exact hp

/-- Witness for `push_decision`: the concrete plain run (history discarded,
not dry) commits and force-pushes. -/
theorem push_decision_witness :
    (∃ e a m, Action.commit e a m ∈ (run exInp exEnv exDfl exW).trace) ∧
    ((resolveConfig exInp exEnv exDfl).dryRun = true →
      (run exInp exEnv exDfl exW).outcome = Outcome.skippedDryRun ∧
      Action.warn "Push disabled (dry run)" ∈ (run exInp exEnv exDfl exW).trace ∧
      (∀ u' b f, Action.push u' b f ∉ (run exInp exEnv exDfl exW).trace)) ∧
    ((resolveConfig exInp exEnv exDfl).dryRun = false →
      (run exInp exEnv exDfl exW).outcome = Outcome.pushed ∧
      Action.push "https://PAT@github.com/me/site.git"
        (resolveConfig exInp exEnv exDfl).targetBranch
        (!(resolveConfig exInp exEnv exDfl).keepHistory) ∈ (run exInp exEnv exDfl exW).trace ∧
      (∀ u' b f, Action.push u' b f ∈ (run exInp exEnv exDfl exW).trace →
        u' = "https://PAT@github.com/me/site.git" ∧
          b = (resolveConfig exInp exEnv exDfl).targetBranch ∧
          f = !(resolveConfig exInp exEnv exDfl).keepHistory)) :=
  push_decision exInp exEnv exDfl exW "https://PAT@github.com/me/site.git"
    { name := "C", address := "c@x.y" } { name := "A", address := "a@x.y" }
    rfl (by decide) (by decide) (by decide) rfl (by decide)

/-- C6: credential resolution prefers a truthy `GH_PAT` (embedded trimmed,
regardless of `GITHUB_TOKEN`) over a truthy `GITHUB_TOKEN` (embedded with the
`x-access-token:` prefix); when neither is set, resolution fails for a
non-dry run — with the build directory present the run ends `Failed` with an
empty trace — while a dry run still resolves a credential-less URL and
proceeds past the credential gate. -/
theorem credential_resolution_order (env : Env) (d : Bool) (dom rep : String) :
    (∀ p, env.GH_PAT = some p → p ≠ "" →
      remoteURLOf env d dom rep =
        some ("https://" ++ (jsTrim p ++ "@") ++ dom ++ "/" ++ rep ++ ".git")) ∧
    (truthy env.GH_PAT = false → ∀ t, env.GITHUB_TOKEN = some t → t ≠ "" →
      remoteURLOf env d dom rep =
        some ("https://" ++ ("x-access-token:" ++ jsTrim t ++ "@") ++ dom ++ "/" ++ rep ++ ".git")) ∧
    (truthy env.GH_PAT = false → truthy env.GITHUB_TOKEN = false →
      (d = false → remoteURLOf env d dom rep = none) ∧
      (d = true → ∃ s, remoteURLOf env d dom rep = some s)) ∧
    (∀ (inp : Inputs) (dfl : Defaults) (w : World),
      truthy env.GH_PAT = false → truthy env.GITHUB_TOKEN = false →
      w.buildDirExists = true →
      ((resolveConfig inp env dfl).dryRun = false →
        run inp env dfl w = ⟨[], Outcome.failed FailReason.missingToken⟩) ∧
      ((resolveConfig inp env dfl).dryRun = true →
        (run inp env dfl w).outcome ≠ Outcome.failed FailReason.missingToken ∧
        Action.mkTmpdir ∈ (run inp env dfl w).trace)) := by
  refine ⟨?_, ?_, ?_, ?_⟩
  · intro p hp hne
    simp [remoteURLOf, credSegment, truthy, hp, hne]
  · intro hpat t ht hne
    simp only [remoteURLOf, credSegment, hpat]
    simp [truthy, ht, hne]
  · intro hpat htok
    refine ⟨?_, ?_⟩
    · intro hd
      simp [remoteURLOf, credSegment, hpat, htok, hd]
    · intro hd
      exact ⟨"https://" ++ "" ++ dom ++ "/" ++ rep ++ ".git",
        by simp [remoteURLOf, credSegment, hpat, htok, hd]⟩
  · intro inp dfl w hpat htok hb
    refine ⟨?_, ?_⟩
    · intro hdr
      have hnone : remoteURLOf env (resolveConfig inp env dfl).dryRun
          (resolveConfig inp env dfl).domain (resolveConfig inp env dfl).repo = none := by
        simp [remoteURLOf, credSegment, hpat, htok, hdr]
      simp [run, hb, hnone]
    · intro hdr
      have hsome : remoteURLOf env (resolveConfig inp env dfl).dryRun
          (resolveConfig inp env dfl).domain (resolveConfig inp env dfl).repo =
          some ("https://" ++ "" ++ (resolveConfig inp env dfl).domain ++ "/" ++
            (resolveConfig inp env dfl).repo ++ ".git") := by
        simp [remoteURLOf, credSegment, hpat, htok, hdr]
      rw [run_eq inp env dfl w _ hb hsome]
      refine ⟨(runAfterTree_no_pre_failure _ _ _ _).1, ?_⟩
      exact runAfterTree_pre_sub _ _ _ _ _ ((mem_preTrace _ _ _ _).mpr (Or.inl rfl))

/-- Witness for `credential_resolution_order` at concrete environments: the
personal token wins even when both are set, the platform token is used in its
absence, and a credential-less dry run proceeds while a credential-less real
run fails. -/
theorem credential_resolution_order_witness :
    remoteURLOf { GH_PAT := some "PAT", GITHUB_TOKEN := some "TOK", GITHUB_REPOSITORY := none }
        false "github.com" "me/site" =
      some ("https://" ++ (jsTrim "PAT" ++ "@") ++ "github.com" ++ "/" ++ "me/site" ++ ".git") ∧
    remoteURLOf exEnvTok false "github.com" "me/site" =
      some ("https://" ++ ("x-access-token:" ++ jsTrim "TOK" ++ "@") ++ "github.com" ++ "/" ++
        "me/site" ++ ".git") ∧
    run exInp exEnvNone exDfl exW = ⟨[], Outcome.failed FailReason.missingToken⟩ ∧
    ((run { exInp with dry_run := "true" } exEnvNone exDfl exW).outcome ≠
        Outcome.failed FailReason.missingToken ∧
      Action.mkTmpdir ∈ (run { exInp with dry_run := "true" } exEnvNone exDfl exW).trace) := by
  refine ⟨?_, ?_, ?_, ?_⟩
  · exact (credential_resolution_order
      { GH_PAT := some "PAT", GITHUB_TOKEN := some "TOK", GITHUB_REPOSITORY := none }
      false "github.com" "me/site").1 "PAT" rfl (by decide)
  · exact (credential_resolution_order exEnvTok false "github.com" "me/site").2.1
      rfl "TOK" rfl (by decide)
  · exact ((credential_resolution_order exEnvNone false "" "").2.2.2 exInp exDfl exW
      rfl rfl rfl).1 rfl
  · exact ((credential_resolution_order exEnvNone false "" "").2.2.2
      { exInp with dry_run := "true" } exDfl exW rfl rfl rfl).2 (by decide)

/-- Concrete oracle whose `copy` promise rejects. -/
def exWerr : World := { exW with copyError := some "EACCES" }

/-- Counterexample to C7 as stated: in this concrete run the `copy`
traversal rejects with an error, the error is merely logged, and the run
continues to a successful push — the outcome is `pushed`, not `Failed`. -/
theorem copy_error_swallowed_cex :
    Action.logError "EACCES" ∈ (run exInp exEnv exDfl exWerr).trace ∧
    (run exInp exEnv exDfl exWerr).outcome = Outcome.pushed := by
  exact ⟨by decide, by decide⟩

/-- C7 as amended: every error surfaced by the `copy` promise — per-entry or
structural alike — is caught at src/main.ts lines 114-116, logged with
`core.error`, and swallowed: the run's outcome is identical to the outcome
of the same run whose copy succeeded, and whenever the run reaches the copy
step the logged error is in the trace. -/
theorem copy_error_logged_not_fatal (inp : Inputs) (env : Env) (dfl : Defaults)
    (w : World) (e : String) :
    ((run inp env dfl { w with copyError := some e }).outcome =
      (run inp env dfl { w with copyError := none }).outcome) ∧
    (w.buildDirExists = true →
      ∀ u, remoteURLOf env (resolveConfig inp env dfl).dryRun
        (resolveConfig inp env dfl).domain (resolveConfig inp env dfl).repo = some u →
      Action.logError e ∈ (run inp env dfl { w with copyError := some e }).trace) := by
  constructor
  · by_cases hb : w.buildDirExists = true
    case neg =>
      have hb' : w.buildDirExists = false := by simpa using hb
      simp [run, hb']
    case pos =>
      cases hc : remoteURLOf env (resolveConfig inp env dfl).dryRun
          (resolveConfig inp env dfl).domain (resolveConfig inp env dfl).repo with
      | none => simp [run, hb, hc]
      | some u =>
        rw [run_eq inp env dfl { w with copyError := some e } u hb hc,
          run_eq inp env dfl { w with copyError := none } u hb hc]
        by_cases hcond : (((resolveConfig inp env dfl).keepHistory ||
            (resolveConfig inp env dfl).multipleSites) && w.remoteBranchExists && !w.isDirty) = true
        · rw [runAfterTree_clean _ { w with copyError := some e } _ _ hcond,
            runAfterTree_clean _ { w with copyError := none } _ _ hcond]
        · have hcond' : (((resolveConfig inp env dfl).keepHistory ||
              (resolveConfig inp env dfl).multipleSites) && w.remoteBranchExists && !w.isDirty) = false := by
            simpa using hcond
          cases hcp : w.parseAddr (resolveConfig inp env dfl).committer with
          | none =>
            rw [runAfterTree_committerNone _ { w with copyError := some e } _ _ hcond' hcp,
              runAfterTree_committerNone _ { w with copyError := none } _ _ hcond' hcp]
          | some cp =>
            rcases Bool.eq_false_or_eq_true w.hasChanges with hch | hch
            · cases hap : w.parseAddr (resolveConfig inp env dfl).author with
              | none =>
                rw [runAfterTree_authorNone _ { w with copyError := some e } _ _ cp hcond' hcp hch hap,
                  runAfterTree_authorNone _ { w with copyError := none } _ _ cp hcond' hcp hch hap]
              | some ap =>
                rcases Bool.eq_false_or_eq_true (resolveConfig inp env dfl).dryRun with hdr | hdr
                · rw [runAfterTree_dryRun _ { w with copyError := some e } _ _ cp ap hcond' hcp hch hap hdr,
                    runAfterTree_dryRun _ { w with copyError := none } _ _ cp ap hcond' hcp hch hap hdr]
                · rw [runAfterTree_commitPush _ { w with copyError := some e } _ _ cp ap hcond' hcp hch hap hdr,
                    runAfterTree_commitPush _ { w with copyError := none } _ _ cp ap hcond' hcp hch hap hdr]
            · rw [runAfterTree_noDeploy _ { w with copyError := some e } _ _ cp hcond' hcp hch,
                runAfterTree_noDeploy _ { w with copyError := none } _ _ cp hcond' hcp hch]
  · intro hb u hc
    rw [run_eq inp env dfl { w with copyError := some e } u hb hc]
    apply runAfterTree_pre_sub
    rw [mem_preTrace]
    right; right; right; left
    simp [copyTrace]

/-- Witness for `copy_error_logged_not_fatal` at a concrete input. -/
theorem copy_error_logged_not_fatal_witness :
    ((run exInp exEnv exDfl { exW with copyError := some "EACCES" }).outcome =
      (run exInp exEnv exDfl { exW with copyError := none }).outcome) ∧
    Action.logError "EACCES" ∈
      (run exInp exEnv exDfl { exW with copyError := some "EACCES" }).trace :=
  ⟨(copy_error_logged_not_fatal exInp exEnv exDfl exW "EACCES").1,
    (copy_error_logged_not_fatal exInp exEnv exDfl exW "EACCES").2 rfl
      "https://PAT@github.com/me/site.git" (by decide)⟩

/-- Concrete inputs whose committer string has no parseable mailbox, with
history kept so the tree is established by cloning. -/
def exInpBad : Inputs := { exInp with committer := "###", keep_history := "true" }

/-- Counterexample to C8 as stated: in this concrete run the committer
string has no parseable mailbox and the run does end `Failed` — but only
after the working tree was mutated: the clone and the content copy are
already in the trace when the failure is surfaced, so the failure is not
raised before tree mutation. -/
theorem malformed_committer_after_mutations_cex :
    (run exInpBad exEnv exDfl exW).outcome =
      Outcome.failed FailReason.committerUndefined ∧
    Action.clone "https://PAT@github.com/me/site.git" "gh-pages" ∈
      (run exInpBad exEnv exDfl exW).trace ∧
    Action.copyDir false ∈ (run exInpBad exEnv exDfl exW).trace := by
  exact ⟨by decide, by decide, by decide⟩

/-- C8 as amended: an unparseable committer or author string is surfaced as
a fatal failure, but only at the identity-configuration step (committer) or
the commit step (author) — that is, after tree establishment, isolation,
copy and metadata writing (the whole pre-check trace) have already happened,
and only in runs that do not take the early no-changes exit. -/
theorem malformed_identity_fails_late (inp : Inputs) (env : Env) (dfl : Defaults)
    (w : World) (u : String)
    (hb : w.buildDirExists = true)
    (hc : remoteURLOf env (resolveConfig inp env dfl).dryRun
        (resolveConfig inp env dfl).domain (resolveConfig inp env dfl).repo = some u)
    (hnd : (((resolveConfig inp env dfl).keepHistory ||
        (resolveConfig inp env dfl).multipleSites) && w.remoteBranchExists && !w.isDirty) = false) :
    (w.parseAddr (resolveConfig inp env dfl).committer = none →
      run inp env dfl w =
        ⟨preTrace (resolveConfig inp env dfl) w u,
          Outcome.failed FailReason.committerUndefined⟩) ∧
    (∀ cp, w.parseAddr (resolveConfig inp env dfl).committer = some cp →
      w.hasChanges = true →
      w.parseAddr (resolveConfig inp env dfl).author = none →
      run inp env dfl w =
        ⟨preTrace (resolveConfig inp env dfl) w u ++
            [Action.setConfig "user.name" cp.name,
              Action.setConfig "user.email" cp.address, Action.addAll],
          Outcome.failed FailReason.authorUndefined⟩) := by
  rw [run_eq inp env dfl w u hb hc]
  constructor
  · intro hcp
    exact runAfterTree_committerNone _ _ _ _ hnd hcp
  · intro cp hcp hch hap
    exact runAfterTree_authorNone _ _ _ _ cp hnd hcp hch hap

/-- Witness for `malformed_identity_fails_late` at a concrete input. -/
theorem malformed_identity_fails_late_witness :
    run exInpBad exEnv exDfl exW =
      ⟨preTrace (resolveConfig exInpBad exEnv exDfl) exW
          "https://PAT@github.com/me/site.git",
        Outcome.failed FailReason.committerUndefined⟩ :=
  (malformed_identity_fails_late exInpBad exEnv exDfl exW
      "https://PAT@github.com/me/site.git" rfl (by decide) (by decide)).1 rfl

end GhPages
